import Mathlib

/-!
Verification of the campus electricity reporting pipeline
(`capstone_assignment/electricity_pipeline.py`).

The pipeline is a pandas script.  We shallowly embed the parts the
specification talks about:

* a CSV file (`RawFile`) is a building name (the file stem), two flags
  recording whether the `timestamp` / `kwh` columns are present, and a list
  of rows;
* a raw CSV cell in the `timestamp` column (`TsCell`) is either missing
  (an empty field, which `pd.read_csv` reads as NaN and `pd.to_datetime`
  turns into NaT without raising), present but unparseable (on which
  `pd.to_datetime` raises, aborting the file), or a valid instant;
* a raw `kwh` cell is `Option ℚ` — `none` models a NaN produced by
  `pd.read_csv` for an empty field; kWh quantities are embedded as
  rationals (the claims under study are about exact value identities,
  never about rounding of binary floats);
* remaining columns of a row are an association list `String × String`
  and are carried through untouched (`extra`).

Pandas behaviours embedded below, with the functions that rely on them:

* `Series.sum` / `GroupBy.sum` skip NaN and return 0 on an all-NaN or
  empty series (`skipnaSum`);
* `GroupBy.mean/min/max` skip NaN and give NaN on an all-NaN group
  (`Option` results in `SummaryRow`);
* `groupby(sort=True)` (the default used by `building_wise_summary`)
  emits one group per distinct key in ascending order;
* `resample("D")` drops rows whose index is NaT and materialises one
  bucket per calendar day from the first to the last day present,
  zero-filling empty interior buckets (`calculate_daily_totals`);
* `Series.idxmax` skips NaN, returns the first index attaining the
  maximum, and raises when every value is NaN (modelled by `Option`).

Python's built-in `sum`, used by `Building.calculate_total_consumption`,
does NOT skip NaN: one NaN reading poisons the whole sum (`pySum`).
-/

/-- An absolute instant: a calendar day (days since the Unix epoch,
1970-01-01 being day 0, a Thursday) plus a second-of-day.  `resample("D")`
buckets by the `day` component. -/
structure Timestamp where
  day : Int
  sec : Nat
deriving DecidableEq, Repr

/-- A raw cell of the `timestamp` column as seen by
`pd.to_datetime(df["timestamp"])`: `missing` (NaN in the CSV, parsed to NaT
without raising), `invalid` (a non-null string that fails to parse, making
`pd.to_datetime` raise and the loader skip the whole file), or a valid
instant. -/
inductive TsCell where
  | missing : TsCell
  | invalid : TsCell
  | valid : Timestamp → TsCell
deriving DecidableEq, Repr

/-- NaT-or-instant result of parsing one timestamp cell (only meaningful
when no cell of the file is `invalid`). -/
def TsCell.toOption : TsCell → Option Timestamp
  | .missing => none
  | .invalid => none
  | .valid t => some t

/-- One data row of a source CSV file: the `timestamp` cell, the `kwh`
cell (`none` = empty field = NaN), and all remaining columns as an
association list (column name, cell value). -/
structure RawRow where
  ts : TsCell
  kwh : Option ℚ
  extra : List (String × String)
deriving DecidableEq, Repr

/-- One source CSV file: `name` is the file stem (`file.stem`), `tsCol` /
`kwhCol` record whether the `timestamp` / `kwh` columns exist, `rows` are
the data rows that survived `pd.read_csv(file, on_bad_lines="skip")`. -/
structure RawFile where
  name : String
  tsCol : Bool
  kwhCol : Bool
  rows : List RawRow
deriving DecidableEq, Repr

/-- One row of the Unified Table: parsed timestamp (`none` = NaT), kwh
(`none` = NaN), the `building` tag assigned by the loader, and the
passthrough columns. -/
structure Row where
  timestamp : Option Timestamp
  kwh : Option ℚ
  building : String
  extra : List (String × String)
deriving DecidableEq, Repr

/-- The body of the loader's per-file `try` block.  Mirrors lines 30–42 of
`electricity_pipeline.py`, in source order:

* `df["building"] = file.stem` — the tag is the stem; note this ASSIGNS
  the `building` column, overwriting one coming from the file, hence the
  `extra` filter;
* if `"timestamp" not in df.columns` → `raise` → `none`;
* `pd.to_datetime(df["timestamp"])` raises iff some cell is `invalid`
  (NaN cells become NaT silently) → `none`;
* if `"kwh" not in df.columns` → `raise` → `none`;
* otherwise every row of the file is appended to the Unified Table. -/
def processFile (f : RawFile) : Option (List Row) :=
  if f.tsCol = false then none
  else if f.rows.any (fun r => r.ts = TsCell.invalid) then none
  else if f.kwhCol = false then none
  else some (f.rows.map (fun r =>
    { timestamp := r.ts.toOption
      kwh := r.kwh
      building := f.name
      extra := r.extra.filter (fun p => p.1 ≠ "building") }))

/-- The input directory as the loader sees it: `none` models a
non-existent directory, `some files` the `*.csv` files in glob order. -/
def load_energy_data (dir : Option (List RawFile)) : List Row :=
  match dir with
  | none => []
  | some files =>
      files.foldl (fun acc f =>
        match processFile f with
        | none => acc
        | some rs => acc ++ rs) []

/-- A file fails the loader's validation (and is skipped wholesale) iff
the `timestamp` column is absent, some timestamp cell is present but
unparseable, or the `kwh` column is absent. -/
def failsValidation (f : RawFile) : Prop :=
  f.tsCol = false ∨ (∃ r ∈ f.rows, r.ts = TsCell.invalid) ∨ f.kwhCol = false

instance (f : RawFile) : Decidable (failsValidation f) := by
  unfold failsValidation
  infer_instance

theorem processFile_eq_none_iff (f : RawFile) :
    processFile f = none ↔ failsValidation f := by
  unfold processFile failsValidation
  by_cases h1 : f.tsCol = false
  · rw [if_pos h1]
    exact iff_of_true rfl (Or.inl h1)
  · rw [if_neg h1]
    by_cases h2 : f.rows.any (fun r => r.ts = TsCell.invalid) = true
    · rw [if_pos h2]
      refine iff_of_true rfl (Or.inr (Or.inl ?_))
      simpa using h2
    · rw [if_neg h2]
      by_cases h3 : f.kwhCol = false
      · rw [if_pos h3]
        exact iff_of_true rfl (Or.inr (Or.inr h3))
      · rw [if_neg h3]
        constructor
        · intro h
          exact (Option.some_ne_none _ h).elim
        · intro h
          rcases h with h | h | h
          · exact absurd h h1
          · exact absurd (by simpa using h) h2
          · exact absurd h h3

theorem processFile_eq_some (f : RawFile) (h1 : f.tsCol = true)
    (h2 : ∀ r ∈ f.rows, r.ts ≠ TsCell.invalid) (h3 : f.kwhCol = true) :
    processFile f = some (f.rows.map (fun r =>
      { timestamp := r.ts.toOption
        kwh := r.kwh
        building := f.name
        extra := r.extra.filter (fun p => p.1 ≠ "building") })) := by
  unfold processFile
  have h2' : f.rows.any (fun r => r.ts = TsCell.invalid) = false := by
    simp only [List.any_eq_false, decide_eq_true_eq]
    intro r hr
    exact fun he => h2 r hr he
  simp [h1, h2', h3]

/-- The Unified Table is the concatenation of the per-file contributions
of the validated files. -/
theorem load_eq_flatten (files : List RawFile) :
    load_energy_data (some files)
      = (files.filterMap processFile).flatten := by
  show List.foldl _ [] files = _
  suffices h : ∀ acc : List Row,
      files.foldl (fun acc f =>
        match processFile f with
        | none => acc
        | some rs => acc ++ rs) acc
        = acc ++ (files.filterMap processFile).flatten by
    simpa using h []
  induction files with
  | nil => intro acc; simp
  | cons f fs ih =>
      intro acc
      cases hpf : processFile f <;>
        simp [List.filterMap_cons, hpf, ih, List.append_assoc]

/-- Maximum of a list, `none` on the empty list: the value semantics of
`Series.max()` / the value located by `Series.idxmax()` after NaN values
have been stripped. -/
def listMax? {α : Type} [LinearOrder α] : List α → Option α
  | [] => none
  | x :: xs => some (xs.foldl max x)

/-- Minimum of a list, `none` on the empty list (`Series.min()`). -/
def listMin? {α : Type} [LinearOrder α] : List α → Option α
  | [] => none
  | x :: xs => some (xs.foldl min x)

theorem foldl_max_mem {α : Type} [LinearOrder α] :
    ∀ (xs : List α) (x : α), xs.foldl max x = x ∨ xs.foldl max x ∈ xs := by
  intro xs
  induction xs with
  | nil => intro x; left; rfl
  | cons y ys ih =>
      intro x
      rcases ih (max x y) with h | h
      · rcases max_choice x y with hc | hc
        · left; rw [List.foldl_cons, h, hc]
        · right
          rw [List.foldl_cons, h, hc]
          exact List.mem_cons_self _ _
      · right
        exact List.mem_cons_of_mem _ (by rw [List.foldl_cons]; exact h)

theorem le_foldl_max_init {α : Type} [LinearOrder α] :
    ∀ (xs : List α) (x : α), x ≤ xs.foldl max x := by
  intro xs
  induction xs with
  | nil => intro x; exact le_refl x
  | cons y ys ih =>
      intro x
      exact le_trans (le_max_left x y) (ih (max x y))

theorem le_foldl_max_of_mem {α : Type} [LinearOrder α] :
    ∀ (xs : List α) (x a : α), a ∈ xs → a ≤ xs.foldl max x := by
  intro xs
  induction xs with
  | nil => intro x a ha; cases ha
  | cons y ys ih =>
      intro x a ha
      rcases List.mem_cons.mp ha with h | h
      · rw [h, List.foldl_cons]
        exact le_trans (le_max_right x y) (le_foldl_max_init ys (max x y))
      · exact ih (max x y) a h

theorem foldl_min_mem {α : Type} [LinearOrder α] :
    ∀ (xs : List α) (x : α), xs.foldl min x = x ∨ xs.foldl min x ∈ xs := by
  intro xs
  induction xs with
  | nil => intro x; left; rfl
  | cons y ys ih =>
      intro x
      rcases ih (min x y) with h | h
      · rcases min_choice x y with hc | hc
        · left; rw [List.foldl_cons, h, hc]
        · right
          rw [List.foldl_cons, h, hc]
          exact List.mem_cons_self _ _
      · right
        exact List.mem_cons_of_mem _ (by rw [List.foldl_cons]; exact h)

theorem foldl_min_le_init {α : Type} [LinearOrder α] :
    ∀ (xs : List α) (x : α), xs.foldl min x ≤ x := by
  intro xs
  induction xs with
  | nil => intro x; exact le_refl x
  | cons y ys ih =>
      intro x
      exact le_trans (ih (min x y)) (min_le_left x y)

theorem foldl_min_le_of_mem {α : Type} [LinearOrder α] :
    ∀ (xs : List α) (x a : α), a ∈ xs → xs.foldl min x ≤ a := by
  intro xs
  induction xs with
  | nil => intro x a ha; cases ha
  | cons y ys ih =>
      intro x a ha
      rcases List.mem_cons.mp ha with h | h
      · rw [h, List.foldl_cons]
        exact le_trans (foldl_min_le_init ys (min x y)) (min_le_right x y)
      · exact ih (min x y) a h

theorem listMax?_eq_none_iff {α : Type} [LinearOrder α] (l : List α) :
    listMax? l = none ↔ l = [] := by
  cases l <;> simp [listMax?]

theorem listMax?_of_ne_nil {α : Type} [LinearOrder α] (l : List α) (h : l ≠ []) :
    ∃ m, listMax? l = some m := by
  cases l with
  | nil => exact absurd rfl h
  | cons x xs => exact ⟨xs.foldl max x, rfl⟩

theorem listMax?_mem {α : Type} [LinearOrder α] {l : List α} {m : α}
    (h : listMax? l = some m) : m ∈ l := by
  cases l with
  | nil => cases h
  | cons x xs =>
      have hm : xs.foldl max x = m := by simpa [listMax?] using h
      rcases foldl_max_mem xs x with he | he
      · rw [← hm, he]; exact List.mem_cons_self _ _
      · rw [← hm]; exact List.mem_cons_of_mem _ he

theorem le_listMax? {α : Type} [LinearOrder α] {l : List α} {m : α}
    (h : listMax? l = some m) : ∀ a ∈ l, a ≤ m := by
  cases l with
  | nil => intro a ha; cases ha
  | cons x xs =>
      have hm : xs.foldl max x = m := by simpa [listMax?] using h
      intro a ha
      rcases List.mem_cons.mp ha with he | he
      · rw [he, ← hm]; exact le_foldl_max_init xs x
      · rw [← hm]; exact le_foldl_max_of_mem xs x a he

theorem listMin?_mem {α : Type} [LinearOrder α] {l : List α} {m : α}
    (h : listMin? l = some m) : m ∈ l := by
  cases l with
  | nil => cases h
  | cons x xs =>
      have hm : xs.foldl min x = m := by simpa [listMin?] using h
      rcases foldl_min_mem xs x with he | he
      · rw [← hm, he]; exact List.mem_cons_self _ _
      · rw [← hm]; exact List.mem_cons_of_mem _ he

theorem listMin?_le {α : Type} [LinearOrder α] {l : List α} {m : α}
    (h : listMin? l = some m) : ∀ a ∈ l, m ≤ a := by
  cases l with
  | nil => intro a ha; cases ha
  | cons x xs =>
      have hm : xs.foldl min x = m := by simpa [listMin?] using h
      intro a ha
      rcases List.mem_cons.mp ha with he | he
      · rw [he, ← hm]; exact foldl_min_le_init xs x
      · rw [← hm]; exact foldl_min_le_of_mem xs x a he

theorem listMin?_of_ne_nil {α : Type} [LinearOrder α] (l : List α) (h : l ≠ []) :
    ∃ m, listMin? l = some m := by
  cases l with
  | nil => exact absurd rfl h
  | cons x xs => exact ⟨xs.foldl min x, rfl⟩

theorem listMax?_congr_perm {α : Type} [LinearOrder α] {l₁ l₂ : List α}
    (h : l₁.Perm l₂) : listMax? l₁ = listMax? l₂ := by
  cases l₁ with
  | nil =>
      have : l₂ = [] := h.nil_eq.symm
      rw [this]
  | cons x xs =>
      have h₂ : l₂ ≠ [] := by
        intro he
        rw [he] at h
        exact List.cons_ne_nil x xs h.eq_nil
      obtain ⟨m₂, hm₂⟩ := listMax?_of_ne_nil l₂ h₂
      obtain ⟨m₁, hm₁⟩ := listMax?_of_ne_nil (x :: xs) (List.cons_ne_nil x xs)
      rw [hm₁, hm₂]
      have h12 : m₁ ≤ m₂ := le_listMax? hm₂ m₁ (h.mem_iff.mp (listMax?_mem hm₁))
      have h21 : m₂ ≤ m₁ := le_listMax? hm₁ m₂ (h.mem_iff.mpr (listMax?_mem hm₂))
      rw [le_antisymm h12 h21]

theorem listMin?_congr_perm {α : Type} [LinearOrder α] {l₁ l₂ : List α}
    (h : l₁.Perm l₂) : listMin? l₁ = listMin? l₂ := by
  cases l₁ with
  | nil =>
      have : l₂ = [] := h.nil_eq.symm
      rw [this]
  | cons x xs =>
      have h₂ : l₂ ≠ [] := by
        intro he
        rw [he] at h
        exact List.cons_ne_nil x xs h.eq_nil
      obtain ⟨m₂, hm₂⟩ := listMin?_of_ne_nil l₂ h₂
      obtain ⟨m₁, hm₁⟩ := listMin?_of_ne_nil (x :: xs) (List.cons_ne_nil x xs)
      rw [hm₁, hm₂]
      have h12 : m₁ ≤ m₂ := listMin?_le hm₁ m₂ (h.mem_iff.mpr (listMin?_mem hm₂))
      have h21 : m₂ ≤ m₁ := listMin?_le hm₂ m₁ (h.mem_iff.mp (listMin?_mem hm₁))
      rw [le_antisymm h12 h21]

/-- `Series.sum()` with pandas' default `skipna=True, min_count=0`: NaN
entries are ignored and an empty (or all-NaN) series sums to 0. -/
def skipnaSum (xs : List (Option ℚ)) : ℚ := (xs.filterMap id).sum

theorem skipnaSum_eq_sum_getD (xs : List (Option ℚ)) :
    skipnaSum xs = (xs.map (fun o => o.getD 0)).sum := by
  induction xs with
  | nil => rfl
  | cons x xs ih =>
      cases x <;> simp [skipnaSum, List.filterMap_cons, ih] at * <;> simp [ih]

/-- `calculate_daily_totals` (lines 56–58): `df.set_index("timestamp")`,
`resample("D")["kwh"].sum()`, `reset_index()`.  Resampling drops rows whose
index is NaT, then produces one bucket per calendar day from the earliest
to the latest day present (zero-filling days with no readings), each bucket
holding the NaN-skipping sum of its rows' kwh.  The helper `intRange lo hi`
is the list of consecutive days `lo, lo+1, …, hi` spanned by the
resample. -/
def intRange (lo hi : Int) : List Int :=
  (List.range (hi - lo + 1).toNat).map (fun (i : Nat) => lo + (i : Int))

def calculate_daily_totals (df : List Row) : List (Int × ℚ) :=
  let idx := df.filterMap (fun r => r.timestamp.map (fun ts => (ts, r.kwh)))
  match listMin? (idx.map (fun p => p.1.day)), listMax? (idx.map (fun p => p.1.day)) with
  | some lo, some hi =>
      (intRange lo hi).map (fun d =>
        (d, skipnaSum ((idx.filter (fun p => p.1.day = d)).map (fun p => p.2))))
  | _, _ => []

/-- End day (a Sunday) of the `"W"` (= `W-SUN`) bucket containing day `d`:
the smallest day `≥ d` congruent to 3 mod 7 (day 0 = 1970-01-01 was a
Thursday, so Sundays are the days `≡ 3 (mod 7)`). -/
def weekEnd (d : Int) : Int := d + (3 - d).emod 7

/-- `calculate_weekly_aggregates` (lines 60–62): like the daily totals but
with `resample("W")`, whose buckets are labelled by their Sunday end day
and run in steps of 7 days from the first week present to the last.
`weekRange lo hi` lists the Sunday labels of those buckets. -/
def weekRange (lo hi : Int) : List Int :=
  (List.range (((weekEnd hi - weekEnd lo) / 7) + 1).toNat).map
    (fun (i : Nat) => weekEnd lo + 7 * (i : Int))

def calculate_weekly_aggregates (df : List Row) : List (Int × ℚ) :=
  let idx := df.filterMap (fun r => r.timestamp.map (fun ts => (ts, r.kwh)))
  match listMin? (idx.map (fun p => p.1.day)), listMax? (idx.map (fun p => p.1.day)) with
  | some lo, some hi =>
      (weekRange lo hi).map (fun w =>
        (w, skipnaSum ((idx.filter (fun p => weekEnd p.1.day = w)).map (fun p => p.2))))
  | _, _ => []

/-- One output row of `building_wise_summary`: the aggregates pandas
computes for one group.  `total` uses the NaN-skipping sum (0 for an
all-NaN group); `mean`, `min`, `max` are NaN (`none`) on an all-NaN
group. -/
structure SummaryRow where
  building : String
  total : ℚ
  mean : Option ℚ
  min : Option ℚ
  max : Option ℚ
deriving DecidableEq, Repr

/-- The non-NaN kwh values of the group named `b`. -/
def groupVals (b : String) (df : List Row) : List ℚ :=
  (df.filter (fun r => r.building = b)).filterMap (fun r => r.kwh)

/-- The aggregate row `df.groupby("building")["kwh"].agg(...)` computes
for the group named `b`. -/
def aggKwh (b : String) (df : List Row) : SummaryRow :=
  { building := b
    total := (groupVals b df).sum
    mean := if (groupVals b df).length = 0 then none
            else some ((groupVals b df).sum / (groupVals b df).length)
    min := listMin? (groupVals b df)
    max := listMax? (groupVals b df) }

/-- Lexicographic-by-code-point order on strings (how Python compares the
`str` group keys), expressed on the underlying character lists. -/
def strLe (a b : String) : Prop := a.data ≤ b.data

instance : DecidableRel strLe := fun a b =>
  inferInstanceAs (Decidable (a.data ≤ b.data))

theorem strLe_iff (a b : String) : strLe a b ↔ a ≤ b :=
  Iff.symm String.le_iff_toList_le

instance : IsTotal String strLe := ⟨fun a b => le_total a.data b.data⟩

instance : IsTrans String strLe := ⟨fun _ _ _ h1 h2 => le_trans h1 h2⟩

instance : IsAntisymm String strLe :=
  ⟨fun _ _ h1 h2 => String.toList_inj.mp (le_antisymm h1 h2)⟩

/-- `building_wise_summary` (lines 64–71):
`df.groupby("building")["kwh"].agg(total=..., mean=..., min=..., max=...)`
with the default `sort=True`, so there is one row per distinct building
name, in ascending lexicographic order of the name. -/
def building_wise_summary (df : List Row) : List SummaryRow :=
  (List.insertionSort strLe (df.map (fun r => r.building)).dedup).map
    (fun b => aggKwh b df)

/-- `MeterReading` (lines 78–81).  `kwh` is `Option ℚ` because the Python
attribute is a float that can be NaN when the reading is built from a
Unified Table row with a null kwh. -/
structure MeterReading where
  timestamp : Option Timestamp
  kwh : Option ℚ
deriving DecidableEq, Repr

/-- `Building` (lines 83–96): a name plus its readings in insertion
order. -/
structure Building where
  name : String
  meter_readings : List MeterReading
deriving DecidableEq, Repr

/-- Python's built-in `sum` over floats: a left fold starting at 0 in
which a single NaN operand (`none`) poisons the entire result, since
`x + nan = nan`.  This is NOT pandas' NaN-skipping sum. -/
def pySum (xs : List (Option ℚ)) : Option ℚ :=
  xs.foldl (fun acc x =>
    match acc, x with
    | some a, some v => some (a + v)
    | _, _ => none) (some 0)

/-- `Building.calculate_total_consumption` (lines 91–92):
`sum(r.kwh for r in self.meter_readings)`. -/
def Building.calculate_total_consumption (b : Building) : Option ℚ :=
  pySum (b.meter_readings.map (fun r => r.kwh))

/-- The `Building` "holding exactly those readings": one `MeterReading`
per Unified Table row tagged with name `b`, in table order. -/
def buildingFromTable (df : List Row) (b : String) : Building :=
  { name := b
    meter_readings := (df.filter (fun r => r.building = b)).map
      (fun r => { timestamp := r.timestamp, kwh := r.kwh }) }

/-- `df["kwh"].max()` over non-NaN entries (`none` when every entry is
NaN or the table is empty). -/
def maxKwh (df : List Row) : Option ℚ := listMax? (df.filterMap (fun r => r.kwh))

/-- `df["kwh"].idxmax()`: the positional index of the first row attaining
the maximum kwh, NaN entries skipped; `none` models the exception pandas
raises when there is no non-NaN entry. -/
def peakIdx (df : List Row) : Option Nat :=
  (maxKwh df).map (fun m => df.findIdx (fun r => r.kwh = some m))

/-- `summary_df["total"].idxmax()`: the positional index of the first
summary row attaining the maximum total; `none` models the exception on an
empty summary (totals themselves are never NaN). -/
def highestIdx (sdf : List SummaryRow) : Option Nat :=
  (listMax? (sdf.map (fun r => r.total))).map (fun m => sdf.findIdx (fun r => r.total = m))

/-- The content of `summary.txt` (lines 159–168), abstracted from its
textual rendering: the quantities interpolated into the fixed layout. -/
structure Summary where
  total_consumption : ℚ
  highest_building : String
  peak_time : Option Timestamp
  peak_load : Option ℚ
  daily_min : Option ℚ
  daily_max : Option ℚ
  weekly_min : Option ℚ
  weekly_max : Option ℚ
deriving DecidableEq, Repr

/-- `generate_summary` (lines 148–173), in source order: the
highest-building lookup runs first (line 150) and the peak lookup second
(line 152); an exception in either (modelled by `none`) aborts the
function before `summary.txt` is written. -/
def generate_summary (df : List Row) (summary_df : List SummaryRow) : Option Summary :=
  match highestIdx summary_df with
  | none => none
  | some hi =>
    match summary_df[hi]? with
    | none => none
    | some hrow =>
      match peakIdx df with
      | none => none
      | some pidx =>
        match df[pidx]? with
        | none => none
        | some prow =>
          let daily := calculate_daily_totals df
          let weekly := calculate_weekly_aggregates df
          some { total_consumption := skipnaSum (df.map (fun r => r.kwh))
                 highest_building := hrow.building
                 peak_time := prow.timestamp
                 peak_load := prow.kwh
                 daily_min := listMin? (daily.map (fun p => p.2))
                 daily_max := listMax? (daily.map (fun p => p.2))
                 weekly_min := listMin? (weekly.map (fun p => p.2))
                 weekly_max := listMax? (weekly.map (fun p => p.2)) }

/-- The files `main` writes on a successful run.  `summary_txt = none`
records that `generate_summary` raised before writing `summary.txt` (the
other three files are written before it runs). -/
structure Outputs where
  cleaned_energy_data_csv : List Row
  building_summary_csv : List SummaryRow
  dashboard_png : Bool
  summary_txt : Option Summary
deriving DecidableEq, Repr

/-- The script's `main` (lines 180–204), named `pipelineMain` here because
`main` is reserved in Lean: load, and if the Unified Table is empty print
`"No data found"` and return (`none` — no output file is written or
overwritten); otherwise compute the building summary and write the four
outputs. -/
def pipelineMain (dir : Option (List RawFile)) : Option Outputs :=
  let df := load_energy_data dir
  if df.isEmpty then none
  else
    let summary_df := building_wise_summary df
    some { cleaned_energy_data_csv := df
           building_summary_csv := summary_df
           dashboard_png := true
           summary_txt := generate_summary df summary_df }

theorem processFile_some_eq (f : RawFile) (rs : List Row)
    (h : processFile f = some rs) :
    rs = f.rows.map (fun r =>
      { timestamp := r.ts.toOption
        kwh := r.kwh
        building := f.name
        extra := r.extra.filter (fun p => p.1 ≠ "building") }) := by
  unfold processFile at h
  split_ifs at h
  exact (Option.some_inj.mp h).symm

/-- Value of column `c` in a raw CSV row, among the columns other than
`timestamp` and `kwh` (first occurrence, as pandas keeps one column per
name). -/
def colLookup (l : List (String × String)) (c : String) : Option String :=
  (l.find? (fun p => p.1 = c)).map (fun p => p.2)

/-- Value of column `c` of a Unified Table row, among the string-valued
columns (`building` plus the passthrough columns). -/
def Row.col (u : Row) (c : String) : Option String :=
  if c = "building" then some u.building else colLookup u.extra c

theorem colLookup_filter_ne (l : List (String × String)) (c : String)
    (hc : c ≠ "building") :
    colLookup (l.filter (fun p => p.1 ≠ "building")) c = colLookup l c := by
  induction l with
  | nil => rfl
  | cons p l ih =>
      by_cases hp : p.1 = "building"
      · have hnc : ¬ ((fun q : String × String => decide (q.1 = c)) p = true) := by
          simp only [decide_eq_true_eq]
          intro he
          exact hc (he.symm.trans hp)
        have hdrop : (p :: l).filter (fun q => decide ¬ q.1 = "building")
            = l.filter (fun q => decide ¬ q.1 = "building") := by
          simp [List.filter_cons, hp]
        have hr : List.find? (fun q : String × String => decide (q.1 = c)) (p :: l)
            = List.find? (fun q : String × String => decide (q.1 = c)) l :=
          List.find?_cons_of_neg _ hnc
        unfold colLookup
        rw [show ((p :: l).filter (fun q => q.1 ≠ "building"))
              = (l.filter (fun q => q.1 ≠ "building")) from hdrop, hr]
        exact ih
      · have hkeep : (p :: l).filter (fun q => decide ¬ q.1 = "building")
            = p :: l.filter (fun q => decide ¬ q.1 = "building") := by
          simp [List.filter_cons, hp]
        unfold colLookup
        rw [show ((p :: l).filter (fun q => q.1 ≠ "building"))
              = p :: (l.filter (fun q => q.1 ≠ "building")) from hkeep]
        by_cases hf : p.1 = c
        · rw [List.find?_cons_of_pos _ (by simpa using hf),
            List.find?_cons_of_pos _ (by simpa using hf)]
        · rw [List.find?_cons_of_neg _ (by simpa using hf),
            List.find?_cons_of_neg _ (by simpa using hf)]
          exact ih

/-- The literal reading of the passthrough sentence, including a column
that happens to be named `building`: every non-`timestamp` column of a
validated file keeps its per-row values in the Unified Table. -/
def C8Claim (f : RawFile) : Prop :=
  ∀ rs, processFile f = some rs →
    rs.map (fun u => u.kwh) = f.rows.map (fun r => r.kwh) ∧
    ∀ (i : Nat) (u : Row) (r : RawRow), rs[i]? = some u → f.rows[i]? = some r →
      ∀ c, c ≠ "timestamp" → colLookup r.extra c ≠ none →
        Row.col u c = colLookup r.extra c

/-- C3 (corrected).  File-level granularity holds: a file contributes
either nothing or all of its rows.  The non-null invariant, however, only
holds for rows whose source cells are themselves present: a validated
file's contribution has non-null timestamps and kwh provided no source
cell was missing (missing cells pass through as NaT/NaN — see the
counterexample `C3_null_kwh_passes_through`). -/
theorem C3_nonnull_when_cells_present (f : RawFile) :
    (processFile f = none ∨
      ∃ rs, processFile f = some rs ∧ rs.length = f.rows.length) ∧
    (∀ rs, processFile f = some rs →
      (∀ r ∈ f.rows, r.ts ≠ TsCell.missing ∧ r.kwh ≠ none) →
      ∀ u ∈ rs, u.timestamp ≠ none ∧ u.kwh ≠ none) := by
  constructor
  · cases hpf : processFile f with
    | none => exact Or.inl rfl
    | some rs =>
        refine Or.inr ⟨rs, rfl, ?_⟩
        rw [processFile_some_eq f rs hpf]
        exact List.length_map _ _
  · intro rs hpf hcells u hu
    rw [processFile_some_eq f rs hpf] at hu
    obtain ⟨r, hr, rfl⟩ := List.mem_map.mp hu
    obtain ⟨hts, hkwh⟩ := hcells r hr
    refine ⟨?_, hkwh⟩
    cases hts' : r.ts with
    | missing => exact absurd hts' hts
    | invalid =>
        have : processFile f = none := by
          rw [processFile_eq_none_iff]
          exact Or.inr (Or.inl ⟨r, hr, hts'⟩)
        rw [this] at hpf
        cases hpf
    | valid t =>
        simp [TsCell.toOption, hts']

/-- Witness for C3: a file with both columns, one fully populated row. -/
def fW3 : RawFile := ⟨"w3", true, true, [⟨TsCell.valid ⟨0, 0⟩, some 1, []⟩]⟩

theorem C3_nonnull_witness :
    ∀ u ∈ [Row.mk (some ⟨0, 0⟩) (some 1) "w3" []],
      u.timestamp ≠ none ∧ u.kwh ≠ none :=
  (C3_nonnull_when_cells_present fW3).2
    [Row.mk (some ⟨0, 0⟩) (some 1) "w3" []] (by decide) (by decide)

/-- Counterexample to C3 as stated: a file whose `kwh` column exists but
has an empty cell validates, and the resulting Unified Table row has a
null kwh — the loader drops nothing, at file or row level. -/
def fX3 : RawFile := ⟨"b3", true, true, [⟨TsCell.valid ⟨0, 0⟩, none, []⟩]⟩

theorem C3_null_kwh_passes_through :
    ¬ (∀ u ∈ load_energy_data (some [fX3]),
        u.timestamp ≠ none ∧ u.kwh ≠ none) := by decide

/-- C4 (confirmed).  A file that fails validation (missing `timestamp`
column, a present-but-unparseable timestamp cell, or missing `kwh`
column) contributes exactly zero rows, and the rest of the run is exactly
the run without that file. -/
theorem C4_invalid_file_contributes_nothing (pre post : List RawFile)
    (f : RawFile) (h : failsValidation f) :
    processFile f = none ∧
    load_energy_data (some (pre ++ f :: post))
      = load_energy_data (some (pre ++ post)) := by
  have hn : processFile f = none := (processFile_eq_none_iff f).mpr h
  refine ⟨hn, ?_⟩
  rw [load_eq_flatten, load_eq_flatten, List.filterMap_append,
    List.filterMap_append, List.filterMap_cons, hn]

/-- Witness files for C4: `wbad` lacks the kwh column, `wgood`
validates. -/
def fWbad : RawFile := ⟨"wbad", true, false, [⟨TsCell.valid ⟨0, 0⟩, some 7, []⟩]⟩

def fWgood : RawFile := ⟨"wgood", true, true, [⟨TsCell.valid ⟨1, 0⟩, some 2, []⟩]⟩

theorem C4_invalid_file_witness :
    processFile fWbad = none ∧
    load_energy_data (some ([fWgood] ++ fWbad :: []))
      = load_energy_data (some ([fWgood] ++ [])) :=
  C4_invalid_file_contributes_nothing [fWgood] [] fWbad (Or.inr (Or.inr rfl))

/-- C5 (confirmed).  If the directory does not exist, or every file fails
validation, the Unified Table is empty and `main` returns after the
"No data found" message: no summary, dashboard or output file is
produced. -/
theorem C5_empty_ingestion_halts (dir : Option (List RawFile))
    (h : dir = none ∨ ∃ fs, dir = some fs ∧ ∀ f ∈ fs, failsValidation f) :
    load_energy_data dir = [] ∧ pipelineMain dir = none := by
  have hl : load_energy_data dir = [] := by
    rcases h with h | ⟨fs, rfl, hall⟩
    · rw [h]
      rfl
    · rw [load_eq_flatten]
      have hnil : fs.filterMap processFile = [] := by
        rw [List.filterMap_eq_nil_iff]
        intro f hf
        exact (processFile_eq_none_iff f).mpr (hall f hf)
      rw [hnil]
      rfl
  refine ⟨hl, ?_⟩
  unfold pipelineMain
  rw [hl]
  rfl

theorem C5_empty_ingestion_witness :
    load_energy_data (some [fWbad]) = [] ∧ pipelineMain (some [fWbad]) = none :=
  C5_empty_ingestion_halts (some [fWbad])
    (Or.inr ⟨[fWbad], rfl, by decide⟩)

/-- C8 (corrected).  Kwh values and all passthrough columns other than one
named `building` survive ingestion unchanged, row by row; a source column
literally named `building` is overwritten with the file stem by
`df["building"] = file.stem` (see `C8_building_column_overwritten`). -/
theorem C8_passthrough_columns (f : RawFile) (rs : List Row)
    (h : processFile f = some rs) :
    rs.map (fun u => u.kwh) = f.rows.map (fun r => r.kwh) ∧
    ∀ (i : Nat) (u : Row) (r : RawRow), rs[i]? = some u → f.rows[i]? = some r →
      ∀ c, c ≠ "timestamp" → c ≠ "building" →
        Row.col u c = colLookup r.extra c := by
  have heq := processFile_some_eq f rs h
  constructor
  · rw [heq, List.map_map]
    rfl
  · intro i u r hu hr c _ hcb
    rw [heq] at hu
    rw [List.getElem?_map, hr] at hu
    have hu' : u = { timestamp := r.ts.toOption
                     kwh := r.kwh
                     building := f.name
                     extra := r.extra.filter (fun p => p.1 ≠ "building") } := by
      simpa using hu.symm
    rw [hu']
    show Row.col _ c = _
    unfold Row.col
    rw [if_neg hcb]
    exact colLookup_filter_ne r.extra c hcb

/-- Witness file for C8 with a passthrough column `zone`. -/
def fW8 : RawFile := ⟨"w8", true, true,
  [⟨TsCell.valid ⟨0, 0⟩, some 4, [("zone", "Z")]⟩]⟩

theorem C8_passthrough_witness :
    Row.col { timestamp := some ⟨0, 0⟩, kwh := some 4, building := "w8",
              extra := [("zone", "Z")] } "zone" = some "Z" :=
  ((C8_passthrough_columns fW8
      [{ timestamp := some ⟨0, 0⟩, kwh := some 4, building := "w8",
         extra := [("zone", "Z")] }] (by decide)).2 0
    { timestamp := some ⟨0, 0⟩, kwh := some 4, building := "w8",
      extra := [("zone", "Z")] }
    ⟨TsCell.valid ⟨0, 0⟩, some 4, [("zone", "Z")]⟩
    (by decide) (by decide) "zone" (by decide) (by decide)).trans (by decide)

/-- Counterexample to C8 as stated: a validated file with a column named
`building` (value `"X"`) loses that value — the loader's
`df["building"] = file.stem` overwrites the column with the stem
`"b8"`. -/
def fX8 : RawFile := ⟨"b8", true, true,
  [⟨TsCell.valid ⟨0, 0⟩, some 1, [("building", "X")]⟩]⟩

theorem C8_building_column_overwritten : ¬ C8Claim fX8 := by
  intro h
  obtain ⟨-, h2⟩ := h
    [{ timestamp := some ⟨0, 0⟩, kwh := some 1, building := "b8", extra := [] }]
    (by decide)
  have h3 := h2 0
    { timestamp := some ⟨0, 0⟩, kwh := some 1, building := "b8", extra := [] }
    ⟨TsCell.valid ⟨0, 0⟩, some 1, [("building", "X")]⟩
    (by decide) (by decide) "building" (by decide) (by decide)
  exact absurd h3 (by decide)

/-- C10 (confirmed).  The building-wise summary has exactly one row per
distinct building name of the Unified Table, and its rows are in ascending
lexicographic order of name, whatever the order of the table's rows. -/
theorem C10_summary_sorted_distinct (df : List Row) :
    ((building_wise_summary df).map (fun r => r.building)).Nodup ∧
    List.Sorted (fun a b : String => a ≤ b)
      ((building_wise_summary df).map (fun r => r.building)) ∧
    ∀ b, b ∈ (building_wise_summary df).map (fun r => r.building) ↔
      ∃ r ∈ df, r.building = b := by
  have hmap : (building_wise_summary df).map (fun r => r.building)
      = List.insertionSort strLe (df.map (fun r => r.building)).dedup := by
    unfold building_wise_summary
    rw [List.map_map]
    have hcomp : ((fun r : SummaryRow => r.building) ∘ (fun b => aggKwh b df))
        = id := funext (fun b => rfl)
    rw [hcomp, List.map_id]
  have hperm : List.Perm
      (List.insertionSort strLe (df.map (fun r => r.building)).dedup)
      ((df.map (fun r => r.building)).dedup) :=
    List.perm_insertionSort strLe _
  refine ⟨?_, ?_, ?_⟩
  · rw [hmap]
    exact hperm.nodup_iff.mpr (List.nodup_dedup _)
  · rw [hmap]
    have hs : List.Sorted strLe
        (List.insertionSort strLe (df.map (fun r => r.building)).dedup) :=
      List.sorted_insertionSort strLe _
    exact hs.imp (fun h => (strLe_iff _ _).mp h)
  · intro b
    rw [hmap, hperm.mem_iff, List.mem_dedup, List.mem_map]

/-- A value attained in a list is attained at the index `findIdx` finds,
which is within bounds; smaller indices do not attain it. -/
theorem C7_highest_building_first_max (sdf : List SummaryRow)
    (hne : sdf ≠ []) :
    ∃ (m : ℚ) (i : Nat) (r : SummaryRow),
      listMax? (sdf.map (fun s => s.total)) = some m ∧
      highestIdx sdf = some i ∧
      sdf[i]? = some r ∧
      r.total = m ∧
      (∀ s ∈ sdf, s.total ≤ m) ∧
      (∀ (j : Nat) (s : SummaryRow), j < i → sdf[j]? = some s → s.total ≠ m) ∧
      (∀ (df : List Row) (out : Summary),
        generate_summary df sdf = some out →
          out.highest_building = r.building) := by
  have hmapne : sdf.map (fun s => s.total) ≠ [] := by
    intro h
    exact hne (List.map_eq_nil_iff.mp h)
  obtain ⟨m, hm⟩ := listMax?_of_ne_nil _ hmapne
  have hmem : m ∈ sdf.map (fun s => s.total) := listMax?_mem hm
  obtain ⟨s₀, hs₀, hs₀m⟩ := List.mem_map.mp hmem
  have hex : ∃ x ∈ sdf, (fun r => decide (r.total = m)) x = true :=
    ⟨s₀, hs₀, by simpa using hs₀m⟩
  have hlt : sdf.findIdx (fun r => r.total = m) < sdf.length :=
    List.findIdx_lt_length_of_exists hex
  refine ⟨m, sdf.findIdx (fun r => r.total = m),
    sdf[sdf.findIdx (fun r => r.total = m)], ?_, ?_, ?_, ?_, ?_, ?_, ?_⟩
  · exact hm
  · unfold highestIdx
    rw [hm]
    rfl
  · exact List.getElem?_eq_getElem hlt
  · have := List.findIdx_getElem (p := fun r : SummaryRow => decide (r.total = m))
      (w := hlt)
    simpa using this
  · intro s hs
    exact le_listMax? hm s.total (List.mem_map.mpr ⟨s, hs, rfl⟩)
  · intro j s hj hjs
    have hjlen : j < sdf.length := by
      by_contra hcon
      push_neg at hcon
      rw [List.getElem?_eq_none hcon] at hjs
      cases hjs
    have hfalse := List.not_of_lt_findIdx (p := fun r : SummaryRow => decide (r.total = m)) hj
    have hsj : sdf[j] = s := by
      have := List.getElem?_eq_getElem hjlen
      rw [hjs] at this
      exact (Option.some_inj.mp this).symm
    rw [hsj] at hfalse
    simpa using hfalse
  · intro df out hout
    unfold generate_summary at hout
    have hhi : highestIdx sdf = some (sdf.findIdx (fun r => r.total = m)) := by
      unfold highestIdx
      rw [hm]
      rfl
    simp only [hhi, List.getElem?_eq_getElem hlt] at hout
    cases hp : peakIdx df with
    | none =>
        simp only [hp, reduceCtorEq] at hout
    | some pidx =>
        cases hq : df[pidx]? with
        | none =>
            simp only [hp, hq, reduceCtorEq] at hout
        | some prow =>
            simp only [hp, hq, Option.some_inj] at hout
            rw [← hout]

/-- Witness summary for C7: two rows, maximum total 5 on the second. -/
def sdfW : List SummaryRow :=
  [⟨"a", 3, some 3, some 3, some 3⟩, ⟨"b", 5, some 5, some 5, some 5⟩]

theorem C7_highest_building_witness :
    ∃ (m : ℚ) (i : Nat) (r : SummaryRow),
      listMax? (sdfW.map (fun s => s.total)) = some m ∧
      highestIdx sdfW = some i ∧
      sdfW[i]? = some r ∧
      r.total = m ∧
      (∀ s ∈ sdfW, s.total ≤ m) ∧
      (∀ (j : Nat) (s : SummaryRow), j < i → sdfW[j]? = some s → s.total ≠ m) ∧
      (∀ (df : List Row) (out : Summary),
        generate_summary df sdfW = some out →
          out.highest_building = r.building) :=
  C7_highest_building_first_max sdfW (by decide)

/-- The `total` entry the building-wise summary reports for name `b`. -/
def summaryTotalFor (df : List Row) (b : String) : Option ℚ :=
  ((building_wise_summary df).find? (fun s => s.building = b)).map
    (fun s => s.total)

theorem find?_eq_of_mem {α : Type} [DecidableEq α] (l : List α) (b : α)
    (h : b ∈ l) : l.find? (fun n => n = b) = some b := by
  induction l with
  | nil => cases h
  | cons x xs ih =>
      by_cases hx : x = b
      · rw [List.find?_cons_of_pos _ (by simpa using hx), hx]
      · rw [List.find?_cons_of_neg _ (by simpa using hx)]
        rcases List.mem_cons.mp h with he | he
        · exact absurd he.symm hx
        · exact ih he

theorem pySum_all_some (xs : List (Option ℚ)) (h : ∀ x ∈ xs, x ≠ none) :
    pySum xs = some ((xs.filterMap id).sum) := by
  unfold pySum
  suffices haux : ∀ (ys : List (Option ℚ)), (∀ x ∈ ys, x ≠ none) → ∀ (a : ℚ),
      ys.foldl (fun acc x =>
        match acc, x with
        | some a, some v => some (a + v)
        | _, _ => none) (some a) = some (a + (ys.filterMap id).sum) by
    rw [haux xs h 0, zero_add]
  intro ys
  induction ys with
  | nil =>
      intro _ a
      simp
  | cons x ys ih =>
      intro hy a
      cases x with
      | none => exact absurd rfl (hy none (List.mem_cons_self _ _))
      | some v =>
          rw [List.foldl_cons]
          show List.foldl _ (some (a + v)) ys = _
          rw [ih (fun x hx => hy x (List.mem_cons_of_mem _ hx)) (a + v)]
          have hfm : (some v :: ys).filterMap id = v :: ys.filterMap id := by
            simp [List.filterMap_cons]
          rw [hfm, List.sum_cons, add_assoc]

/-- C1 (corrected).  Provided every Unified Table row tagged `b` has a
non-null kwh, the summary's total for `b`, the sum of kwh over the rows
tagged `b`, and the Domain Model's total for a `Building` holding exactly
those readings all coincide.  Without that proviso the two aggregation
paths disagree: pandas' group sum skips NaN while Python's `sum` in
`calculate_total_consumption` propagates it (see
`C1_domain_model_nan_disagreement`). -/
theorem C1_building_total_agreement (df : List Row) (b : String)
    (hb : ∃ r ∈ df, r.building = b)
    (hnn : ∀ r ∈ df, r.building = b → r.kwh ≠ none) :
    summaryTotalFor df b
      = some (((df.filter (fun r => r.building = b)).filterMap
          (fun r => r.kwh)).sum) ∧
    (buildingFromTable df b).calculate_total_consumption
      = some (((df.filter (fun r => r.building = b)).filterMap
          (fun r => r.kwh)).sum) := by
  constructor
  · have hbn : b ∈ List.insertionSort strLe
        (df.map (fun r => r.building)).dedup := by
      rw [(List.perm_insertionSort strLe _).mem_iff, List.mem_dedup,
        List.mem_map]
      exact hb
    unfold summaryTotalFor building_wise_summary
    rw [List.find?_map]
    have hpred : ((fun s : SummaryRow => decide (s.building = b))
        ∘ (fun n => aggKwh n df)) = (fun n => decide (n = b)) := rfl
    rw [hpred, find?_eq_of_mem _ b hbn]
    rfl
  · have hmr : (buildingFromTable df b).calculate_total_consumption
        = pySum ((df.filter (fun r => r.building = b)).map (fun r => r.kwh)) := by
      unfold Building.calculate_total_consumption buildingFromTable
      rw [List.map_map]
      rfl
    rw [hmr, pySum_all_some]
    · rw [List.filterMap_map]
      rfl
    · intro x hx
      obtain ⟨r, hr, rfl⟩ := List.mem_map.mp hx
      have hrf := List.mem_filter.mp hr
      exact hnn r hrf.1 (by simpa using hrf.2)

/-- Witness file for C1: one building, all kwh present. -/
def fW1 : RawFile := ⟨"w1", true, true,
  [⟨TsCell.valid ⟨0, 0⟩, some 2, []⟩, ⟨TsCell.valid ⟨0, 60⟩, some 3, []⟩]⟩

theorem C1_building_total_witness :
    summaryTotalFor (load_energy_data (some [fW1])) "w1"
      = some ((((load_energy_data (some [fW1])).filter
          (fun r => r.building = "w1")).filterMap (fun r => r.kwh)).sum) ∧
    (buildingFromTable (load_energy_data (some [fW1])) "w1").calculate_total_consumption
      = some ((((load_energy_data (some [fW1])).filter
          (fun r => r.building = "w1")).filterMap (fun r => r.kwh)).sum) :=
  C1_building_total_agreement (load_energy_data (some [fW1])) "w1"
    (by decide) (by decide)

theorem highestIdx_isSome (sdf : List SummaryRow) (h : sdf ≠ []) :
    ∃ (hi : Nat) (hrow : SummaryRow),
      highestIdx sdf = some hi ∧ sdf[hi]? = some hrow := by
  have hmapne : sdf.map (fun s => s.total) ≠ [] := by
    intro hc
    exact h (List.map_eq_nil_iff.mp hc)
  obtain ⟨m, hm⟩ := listMax?_of_ne_nil _ hmapne
  obtain ⟨s₀, hs₀, hs₀m⟩ := List.mem_map.mp (listMax?_mem hm)
  have hlt : sdf.findIdx (fun r => r.total = m) < sdf.length :=
    List.findIdx_lt_length_of_exists ⟨s₀, hs₀, by simpa using hs₀m⟩
  refine ⟨sdf.findIdx (fun r => r.total = m),
    sdf[sdf.findIdx (fun r => r.total = m)], ?_, List.getElem?_eq_getElem hlt⟩
  unfold highestIdx
  rw [hm]
  rfl

/-- C6 (corrected).  Provided at least one row has a non-null kwh, the
reported peak is the first row attaining the maximum kwh (NaN entries
skipped), with its timestamp and kwh reported verbatim in `summary.txt`.
On a non-empty table whose kwh are all null, `idxmax` raises instead and
no peak is reported (see `C6_all_nan_kwh_no_peak`). -/
theorem C6_peak_first_max (df : List Row) (h : ∃ r ∈ df, r.kwh ≠ none) :
    ∃ (m : ℚ) (i : Nat) (r : Row),
      maxKwh df = some m ∧
      peakIdx df = some i ∧
      df[i]? = some r ∧
      r.kwh = some m ∧
      (∀ r' ∈ df, ∀ v : ℚ, r'.kwh = some v → v ≤ m) ∧
      (∀ (j : Nat) (rj : Row), j < i → df[j]? = some rj → rj.kwh ≠ some m) ∧
      ∃ out, generate_summary df (building_wise_summary df) = some out ∧
        out.peak_time = r.timestamp ∧ out.peak_load = r.kwh := by
  obtain ⟨r₁, hr₁, hk₁⟩ := h
  have hvalsne : df.filterMap (fun r => r.kwh) ≠ [] := by
    intro hc
    cases hv : r₁.kwh with
    | none => exact hk₁ hv
    | some v =>
        have : v ∈ df.filterMap (fun r => r.kwh) :=
          List.mem_filterMap.mpr ⟨r₁, hr₁, hv⟩
        rw [hc] at this
        cases this
  obtain ⟨m, hm⟩ := listMax?_of_ne_nil _ hvalsne
  have hmm : maxKwh df = some m := hm
  obtain ⟨r₀, hr₀, hk₀⟩ := List.mem_filterMap.mp (listMax?_mem hm)
  have hex : ∃ x ∈ df, (fun r : Row => decide (r.kwh = some m)) x = true :=
    ⟨r₀, hr₀, by simpa using hk₀⟩
  have hlt : df.findIdx (fun r => r.kwh = some m) < df.length :=
    List.findIdx_lt_length_of_exists hex
  have hpk : peakIdx df = some (df.findIdx (fun r => r.kwh = some m)) := by
    unfold peakIdx
    rw [hmm]
    rfl
  have hdfi : df[df.findIdx (fun r => r.kwh = some m)]?
      = some df[df.findIdx (fun r => r.kwh = some m)] :=
    List.getElem?_eq_getElem hlt
  have hne : df ≠ [] := by
    intro hc
    rw [hc] at hr₁
    cases hr₁
  have hbne : building_wise_summary df ≠ [] := by
    intro hc
    have h1 : List.insertionSort strLe (df.map (fun r => r.building)).dedup = [] :=
      List.map_eq_nil_iff.mp hc
    have hperm := List.perm_insertionSort strLe (df.map (fun r => r.building)).dedup
    rw [h1] at hperm
    have h2 : (df.map (fun r => r.building)).dedup = [] := hperm.nil_eq.symm
    have h3 : df.map (fun r => r.building) = [] := (List.dedup_eq_nil _).mp h2
    exact hne (List.map_eq_nil_iff.mp h3)
  obtain ⟨hi, hrow, hhi, hget⟩ := highestIdx_isSome _ hbne
  refine ⟨m, df.findIdx (fun r => r.kwh = some m),
    df[df.findIdx (fun r => r.kwh = some m)], hmm, hpk, hdfi, ?_, ?_, ?_, ?_⟩
  · have := List.findIdx_getElem (p := fun r : Row => decide (r.kwh = some m)) (w := hlt)
    simpa using this
  · intro r' hr' v hv
    exact le_listMax? hm v (List.mem_filterMap.mpr ⟨r', hr', hv⟩)
  · intro j rj hj hjs
    have hjlen : j < df.length := by
      by_contra hcon
      push_neg at hcon
      rw [List.getElem?_eq_none hcon] at hjs
      cases hjs
    have hfalse := List.not_of_lt_findIdx (p := fun r : Row => decide (r.kwh = some m)) hj
    have hdj : df[j] = rj := by
      have hq := List.getElem?_eq_getElem hjlen
      rw [hjs] at hq
      exact (Option.some_inj.mp hq).symm
    rw [hdj] at hfalse
    simpa using hfalse
  · unfold generate_summary
    simp only [hhi, hget, hpk, hdfi]
    exact ⟨_, rfl, rfl, rfl⟩

/-- Witness table for C6: the specification's example kwh sequence
[1.0, 5.5, 3.2]. -/
def dfW6 : List Row :=
  [⟨some ⟨0, 0⟩, some 1, "w6", []⟩,
   ⟨some ⟨0, 60⟩, some (11 / 2), "w6", []⟩,
   ⟨some ⟨0, 120⟩, some (16 / 5), "w6", []⟩]

theorem C6_peak_first_max_witness :
    ∃ (m : ℚ) (i : Nat) (r : Row),
      maxKwh dfW6 = some m ∧
      peakIdx dfW6 = some i ∧
      dfW6[i]? = some r ∧
      r.kwh = some m ∧
      (∀ r' ∈ dfW6, ∀ v : ℚ, r'.kwh = some v → v ≤ m) ∧
      (∀ (j : Nat) (rj : Row), j < i → dfW6[j]? = some rj → rj.kwh ≠ some m) ∧
      ∃ out, generate_summary dfW6 (building_wise_summary dfW6) = some out ∧
        out.peak_time = r.timestamp ∧ out.peak_load = r.kwh :=
  C6_peak_first_max dfW6 ⟨⟨some ⟨0, 0⟩, some 1, "w6", []⟩, by decide, by decide⟩

/-- On the example [1.0, 5.5, 3.2] the reported peak load is 5.5 with the
second row's timestamp (independent check of the claim's concrete
instance). -/
theorem peak_example_eval :
    (generate_summary dfW6 (building_wise_summary dfW6)).map
        (fun out => (out.peak_time, out.peak_load))
      = some (some ⟨0, 60⟩, some (11 / 2)) := by
  norm_num +decide [dfW6, building_wise_summary, aggKwh, groupVals, List.insertionSort,
    List.dedup, List.pwFilter, skipnaSum, listMin?, listMax?, generate_summary,
    highestIdx, peakIdx, maxKwh, calculate_daily_totals,
    calculate_weekly_aggregates, weekEnd, List.findIdx_cons,
    List.filterMap_cons, List.foldl_cons, List.foldl_nil, min_def, max_def,
    (by decide : intRange 0 0 = [0]), (by decide : weekRange 0 0 = [3])]

/-- Counterexample to C6 as stated: a non-empty Unified Table whose kwh
values are all null has no reportable peak — `idxmax` raises and
`generate_summary` never completes, so no peak row exists. -/
def fX6 : RawFile := ⟨"b6", true, true,
  [⟨TsCell.valid ⟨0, 0⟩, none, []⟩, ⟨TsCell.valid ⟨0, 60⟩, none, []⟩]⟩

theorem C6_all_nan_kwh_no_peak :
    load_energy_data (some [fX6]) ≠ [] ∧
    peakIdx (load_energy_data (some [fX6])) = none ∧
    generate_summary (load_energy_data (some [fX6]))
      (building_wise_summary (load_energy_data (some [fX6]))) = none := by
  refine ⟨by decide, by decide, ?_⟩
  unfold generate_summary
  have hp : peakIdx (load_energy_data (some [fX6])) = none := by decide
  cases hh : highestIdx (building_wise_summary (load_energy_data (some [fX6]))) with
  | none => rfl
  | some hi =>
      cases hg : (building_wise_summary (load_energy_data (some [fX6])))[hi]? with
      | none => simp only [hh, hg]
      | some hrow => simp only [hh, hg, hp]

/-- Counterexample to C1 as stated: with a null kwh among building `b1`'s
rows, the summary total (NaN skipped: 2) differs from
`calculate_total_consumption` (Python `sum` propagates the NaN: NaN). -/
def fX1 : RawFile := ⟨"b1", true, true,
  [⟨TsCell.valid ⟨0, 0⟩, some 2, []⟩, ⟨TsCell.valid ⟨0, 50⟩, none, []⟩]⟩

theorem C1_domain_model_nan_disagreement :
    summaryTotalFor (load_energy_data (some [fX1])) "b1"
      ≠ (buildingFromTable (load_energy_data (some [fX1]))
          "b1").calculate_total_consumption := by
  intro heq
  have hdom : (buildingFromTable (load_energy_data (some [fX1]))
      "b1").calculate_total_consumption = none := by decide
  have hsome : (summaryTotalFor (load_energy_data (some [fX1])) "b1").isSome
      = true := by decide
  rw [heq, hdom] at hsome
  cases hsome

theorem sum_map_ite_mem {α : Type} [DecidableEq α] (ds : List α) (a : α) (c : ℚ)
    (hnd : ds.Nodup) (ha : a ∈ ds) :
    (ds.map (fun d => if a = d then c else 0)).sum = c := by
  induction ds with
  | nil => cases ha
  | cons d ds ih =>
      obtain ⟨hdni, hnd'⟩ := List.nodup_cons.mp hnd
      rw [List.map_cons, List.sum_cons]
      rcases List.mem_cons.mp ha with he | he
      · rw [if_pos he]
        have hzero : (ds.map (fun x => if a = x then c else 0)).sum = 0 := by
          apply List.sum_eq_zero
          intro x hx
          obtain ⟨d', hd', rfl⟩ := List.mem_map.mp hx
          rw [if_neg]
          intro had
          rw [he] at had
          exact hdni (had ▸ hd')
        rw [hzero, add_zero]
      · have hne : a ≠ d := by
          intro hc
          rw [hc] at he
          exact hdni he
        rw [if_neg hne, ih hnd' he, zero_add]

theorem sum_map_add {α : Type} (ds : List α) (f g : α → ℚ) :
    (ds.map (fun d => f d + g d)).sum = (ds.map f).sum + (ds.map g).sum := by
  induction ds with
  | nil => simp
  | cons d ds ih =>
      rw [List.map_cons, List.map_cons, List.map_cons, List.sum_cons,
        List.sum_cons, List.sum_cons, ih]
      ring

/-- Double counting: summing the per-bucket sums over a duplicate-free
list of buckets that covers every key gives the total sum. -/
theorem sum_fiberwise {α : Type} [DecidableEq α] (ds : List α)
    (rs : List (α × ℚ)) (hnd : ds.Nodup) (hmem : ∀ p ∈ rs, p.1 ∈ ds) :
    (ds.map (fun d =>
      ((rs.filter (fun q => q.1 = d)).map (fun q => q.2)).sum)).sum
      = (rs.map (fun q => q.2)).sum := by
  induction rs with
  | nil =>
      rw [List.map_nil, List.sum_nil]
      apply List.sum_eq_zero
      intro x hx
      obtain ⟨d, _, rfl⟩ := List.mem_map.mp hx
      rfl
  | cons p rs ih =>
      have hstep : (fun d =>
            (((p :: rs).filter (fun q => q.1 = d)).map (fun q => q.2)).sum)
          = fun d => (if p.1 = d then p.2 else 0)
              + ((rs.filter (fun q => q.1 = d)).map (fun q => q.2)).sum := by
        funext d
        by_cases hd : p.1 = d
        · rw [List.filter_cons_of_pos (by simpa using hd), List.map_cons,
            List.sum_cons, if_pos hd]
        · rw [List.filter_cons_of_neg (by simpa using hd), if_neg hd, zero_add]
      rw [hstep, sum_map_add,
        sum_map_ite_mem ds p.1 p.2 hnd (hmem p (List.mem_cons_self _ _)),
        ih (fun q hq => hmem q (List.mem_cons_of_mem _ hq)),
        List.map_cons, List.sum_cons]

theorem mem_intRange (lo hi d : Int) (h1 : lo ≤ d) (h2 : d ≤ hi) :
    d ∈ intRange lo hi := by
  unfold intRange
  rw [List.mem_map]
  refine ⟨(d - lo).toNat, ?_, ?_⟩
  · rw [List.mem_range]
    omega
  · omega

theorem nodup_intRange (lo hi : Int) : (intRange lo hi).Nodup := by
  unfold intRange
  refine List.Nodup.map ?_ (List.nodup_range _)
  intro a b hab
  have hab' : lo + (a : Int) = lo + (b : Int) := hab
  omega

theorem filterMap_ts_map_snd (df : List Row)
    (hts : ∀ r ∈ df, r.timestamp ≠ none) :
    (df.filterMap (fun r => r.timestamp.map (fun ts => (ts, r.kwh)))).map
        (fun p => p.2)
      = df.map (fun r => r.kwh) := by
  induction df with
  | nil => rfl
  | cons r df ih =>
      cases hr : r.timestamp with
      | none => exact absurd hr (hts r (List.mem_cons_self _ _))
      | some ts =>
          rw [List.filterMap_cons]
          simp only [hr, Option.map_some']
          rw [List.map_cons, List.map_cons,
            ih (fun x hx => hts x (List.mem_cons_of_mem _ hx))]

/-- C2 (corrected).  Provided every row has a non-null timestamp, the
daily totals (including the zero-filled interior days the calendar
resample materialises) sum to the grand total of all kwh in the table.
Rows with a NaT timestamp are silently dropped by `resample` and break
the conservation (see `C2_nat_row_breaks_conservation`). -/
theorem C2_daily_totals_conservation (df : List Row) (hne : df ≠ [])
    (hts : ∀ r ∈ df, r.timestamp ≠ none) :
    ((calculate_daily_totals df).map (fun p => p.2)).sum
      = skipnaSum (df.map (fun r => r.kwh)) := by
  have hsnd : (df.filterMap (fun r => r.timestamp.map (fun ts => (ts, r.kwh)))).map
      (fun p => p.2) = df.map (fun r => r.kwh) := filterMap_ts_map_snd df hts
  have hidxne : df.filterMap (fun r => r.timestamp.map (fun ts => (ts, r.kwh))) ≠ [] := by
    intro hc
    rw [hc] at hsnd
    exact hne (List.map_eq_nil_iff.mp hsnd.symm)
  have hdayne : (df.filterMap (fun r => r.timestamp.map (fun ts => (ts, r.kwh)))).map
      (fun p => p.1.day) ≠ [] := by
    intro hc
    exact hidxne (List.map_eq_nil_iff.mp hc)
  obtain ⟨lo, hlo⟩ := listMin?_of_ne_nil _ hdayne
  obtain ⟨hi, hhi⟩ := listMax?_of_ne_nil _ hdayne
  have hcalc : calculate_daily_totals df
      = (intRange lo hi).map (fun d =>
          (d, skipnaSum (((df.filterMap (fun r => r.timestamp.map
              (fun ts => (ts, r.kwh)))).filter
            (fun p => p.1.day = d)).map (fun p => p.2)))) := by
    unfold calculate_daily_totals
    simp only [hlo, hhi]
  rw [hcalc, List.map_map]
  have hcomp : ((fun p : Int × ℚ => p.2)
      ∘ (fun d => (d, skipnaSum (((df.filterMap (fun r => r.timestamp.map
            (fun ts => (ts, r.kwh)))).filter
          (fun p => p.1.day = d)).map (fun p => p.2)))))
      = fun d => skipnaSum (((df.filterMap (fun r => r.timestamp.map
            (fun ts => (ts, r.kwh)))).filter
          (fun p => p.1.day = d)).map (fun p => p.2)) := rfl
  rw [hcomp]
  have hterm : (fun d => skipnaSum (((df.filterMap (fun r => r.timestamp.map
            (fun ts => (ts, r.kwh)))).filter
          (fun p => p.1.day = d)).map (fun p => p.2)))
      = fun d => ((((df.filterMap (fun r => r.timestamp.map
            (fun ts => (ts, r.kwh)))).map
          (fun p => (p.1.day, p.2.getD 0))).filter
            (fun q => q.1 = d)).map (fun q => q.2)).sum := by
    funext d
    rw [skipnaSum_eq_sum_getD, List.filter_map, List.map_map, List.map_map]
    rfl
  rw [hterm, sum_fiberwise (intRange lo hi) _ (nodup_intRange lo hi) ?hmem]
  case hmem =>
    intro q hq
    obtain ⟨p, hp, rfl⟩ := List.mem_map.mp hq
    apply mem_intRange
    · exact listMin?_le hlo _ (List.mem_map.mpr ⟨p, hp, rfl⟩)
    · exact le_listMax? hhi _ (List.mem_map.mpr ⟨p, hp, rfl⟩)
  rw [List.map_map]
  have hfinal : ((fun q : Int × ℚ => q.2)
        ∘ (fun p : Timestamp × Option ℚ => (p.1.day, p.2.getD 0)))
      = fun p : Timestamp × Option ℚ => p.2.getD 0 := rfl
  rw [hfinal, skipnaSum_eq_sum_getD, ← hsnd, List.map_map]
  rfl

/-- Witness table for C2, with an empty interior day (day 1) that the
calendar resample zero-fills. -/
def dfW2 : List Row :=
  [⟨some ⟨0, 0⟩, some 2, "w2", []⟩, ⟨some ⟨2, 0⟩, some 3, "w2", []⟩]

theorem C2_daily_totals_witness :
    ((calculate_daily_totals dfW2).map (fun p => p.2)).sum
      = skipnaSum (dfW2.map (fun r => r.kwh)) :=
  C2_daily_totals_conservation dfW2 (by decide) (by decide)

/-- Counterexample to C2 as stated: a loader-produced non-empty table
whose single row has an empty timestamp cell (NaT).  `resample` drops the
row, so the daily totals sum to 0 while the table's kwh sum to 5. -/
def fX2 : RawFile := ⟨"b2", true, true, [⟨TsCell.missing, some 5, []⟩]⟩

theorem C2_nat_row_breaks_conservation :
    load_energy_data (some [fX2]) ≠ [] ∧
    ((calculate_daily_totals (load_energy_data (some [fX2]))).map
        (fun p => p.2)).sum
      ≠ skipnaSum ((load_energy_data (some [fX2])).map (fun r => r.kwh)) := by
  constructor
  · decide
  · norm_num +decide [load_energy_data, processFile, TsCell.toOption, fX2,
      calculate_daily_totals, skipnaSum, listMin?, listMax?,
      List.filterMap_cons]

theorem load_perm_of_perm (fs1 fs2 : List RawFile) (h : List.Perm fs1 fs2) :
    List.Perm (load_energy_data (some fs1)) (load_energy_data (some fs2)) := by
  rw [load_eq_flatten, load_eq_flatten]
  exact (h.filterMap processFile).flatten

theorem aggKwh_congr_perm (b : String) (df1 df2 : List Row)
    (h : List.Perm df1 df2) : aggKwh b df1 = aggKwh b df2 := by
  have hvals : List.Perm (groupVals b df1) (groupVals b df2) := by
    unfold groupVals
    exact (h.filter (fun r => decide (r.building = b))).filterMap
      (fun r => r.kwh)
  unfold aggKwh
  rw [show (groupVals b df1).sum = (groupVals b df2).sum from hvals.sum_eq,
    show (groupVals b df1).length = (groupVals b df2).length from
      hvals.length_eq,
    show listMin? (groupVals b df1) = listMin? (groupVals b df2) from
      listMin?_congr_perm hvals,
    show listMax? (groupVals b df1) = listMax? (groupVals b df2) from
      listMax?_congr_perm hvals]

/-- C9 (corrected).  The building summary — hence `building_summary.csv` —
is a function of the directory's file set and contents only: any two
enumeration orders of the same files produce identical summaries.
`summary.txt` is not (see `C9_summary_txt_order_dependent`): a kwh tie
across files makes the reported peak depend on the enumeration order,
which `Path.glob` does not fix. -/
theorem C9_building_summary_perm_invariant (fs1 fs2 : List RawFile)
    (h : List.Perm fs1 fs2) :
    building_wise_summary (load_energy_data (some fs1))
      = building_wise_summary (load_energy_data (some fs2)) := by
  have hrows : List.Perm (load_energy_data (some fs1))
      (load_energy_data (some fs2)) := load_perm_of_perm fs1 fs2 h
  have hnames : List.insertionSort strLe
      ((load_energy_data (some fs1)).map (fun r => r.building)).dedup
      = List.insertionSort strLe
        ((load_energy_data (some fs2)).map (fun r => r.building)).dedup := by
    apply List.eq_of_perm_of_sorted ?_ (List.sorted_insertionSort strLe _)
      (List.sorted_insertionSort strLe _)
    exact (List.perm_insertionSort strLe _).trans
      (((hrows.map (fun r => r.building)).dedup).trans
        (List.perm_insertionSort strLe _).symm)
  unfold building_wise_summary
  rw [hnames]
  apply List.map_congr_left
  intro b _
  exact aggKwh_congr_perm b _ _ hrows

/-- Witness files for C9 (also used by the counterexample): one row each,
equal maximal kwh 5, different timestamps. -/
def fX9a : RawFile := ⟨"A9", true, true, [⟨TsCell.valid ⟨0, 0⟩, some 5, []⟩]⟩

def fX9b : RawFile := ⟨"B9", true, true, [⟨TsCell.valid ⟨0, 100⟩, some 5, []⟩]⟩

theorem C9_building_summary_witness :
    building_wise_summary (load_energy_data (some [fX9a, fX9b]))
      = building_wise_summary (load_energy_data (some [fX9b, fX9a])) :=
  C9_building_summary_perm_invariant [fX9a, fX9b] [fX9b, fX9a]
    (List.Perm.swap fX9b fX9a [])

/-- Counterexample to C9 as stated: the two orders in which the two runs
may enumerate the same two files give different `summary.txt` contents —
the peak-kwh tie is broken by table order, so the reported peak timestamp
flips. -/
theorem C9_summary_txt_order_dependent :
    List.Perm [fX9a, fX9b] [fX9b, fX9a] ∧
    (pipelineMain (some [fX9a, fX9b])).map
        (fun o => o.summary_txt.map (fun s => s.peak_time))
      ≠ (pipelineMain (some [fX9b, fX9a])).map
        (fun o => o.summary_txt.map (fun s => s.peak_time)) := by
  refine ⟨List.Perm.swap fX9b fX9a [], ?_⟩
  have h1 : (pipelineMain (some [fX9a, fX9b])).map
      (fun o => o.summary_txt.map (fun s => s.peak_time))
      = some (some (some ⟨0, 0⟩)) := by
    norm_num +decide [pipelineMain, load_energy_data, processFile,
      TsCell.toOption, fX9a, fX9b, building_wise_summary, aggKwh, groupVals,
      List.insertionSort, List.orderedInsert, List.dedup, List.pwFilter,
      skipnaSum, listMin?, listMax?, generate_summary, highestIdx, peakIdx,
      maxKwh, List.findIdx_cons, List.filterMap_cons, List.foldl_cons,
      List.foldl_nil, min_def, max_def, List.isEmpty]
  have h2 : (pipelineMain (some [fX9b, fX9a])).map
      (fun o => o.summary_txt.map (fun s => s.peak_time))
      = some (some (some ⟨0, 100⟩)) := by
    norm_num +decide [pipelineMain, load_energy_data, processFile,
      TsCell.toOption, fX9a, fX9b, building_wise_summary, aggKwh, groupVals,
      List.insertionSort, List.orderedInsert, List.dedup, List.pwFilter,
      skipnaSum, listMin?, listMax?, generate_summary, highestIdx, peakIdx,
      maxKwh, List.findIdx_cons, List.filterMap_cons, List.foldl_cons,
      List.foldl_nil, min_def, max_def, List.isEmpty]
  rw [h1, h2]
  decide
